import Mathlib

/-!
Verification of the Guideline-Aware AI Agent's context-aware recommendation
engine against its natural-language specification.

The definitions below are a shallow embedding of the TypeScript services
(`ProductService`, `GuidelineService`, `PromptService`, `AgentService`):
pure string manipulation is translated to functions on `List Char`,
JavaScript numbers used for confidences/prices/ratings become `ℚ`,
database accesses become explicit parameters (a catalog list, or abstract
strategy-result functions), and optional/undefined values become `Option`.
-/

namespace GAgent

/-- Lower-cased character list of a string, modelling JS `toLowerCase()`
(the ASCII range is all the repository's vocabulary uses). -/
def lcList (s : String) : List Char :=
  s.toList.map Char.toLower

/-- `hasPrefixCL hay pat` : `pat` occurs at the start of `hay`. -/
def hasPrefixCL : List Char → List Char → Bool
  | _, [] => true
  | [], _ :: _ => false
  | c :: cs, d :: ds => c = d && hasPrefixCL cs ds

/-- `containsSeg hay pat` : `pat` occurs contiguously somewhere in `hay`;
models JS `String.prototype.includes`. -/
def containsSeg : List Char → List Char → Bool
  | [], pat => pat.isEmpty
  | c :: rest, pat => hasPrefixCL (c :: rest) pat || containsSeg rest pat

/-- Whitespace characters recognised by JS `trim` / `\s` (the subset that
can occur in chat messages). -/
def isJsWs (c : Char) : Bool :=
  c = ' ' || c = '\t' || c = '\n' || c = '\r'

/-- JS `String.prototype.trim`. -/
def jsTrim (s : List Char) : List Char :=
  ((s.dropWhile isJsWs).reverse.dropWhile isJsWs).reverse

/-- Worker for splitting on runs of whitespace, JS `split(/\s+/)` semantics:
a separator run ends the current token; a leading run yields a leading empty
token and a trailing run a trailing empty token. -/
def splitWsGo : List Char → List Char → Bool → List (List Char)
  | [], acc, _ => [acc.reverse]
  | c :: cs, acc, inSep =>
    if isJsWs c then
      if inSep then splitWsGo cs [] true
      else acc.reverse :: splitWsGo cs [] true
    else splitWsGo cs (c :: acc) false

/-- JS `lowerMessage.split(/\s+/)` as a list of strings. -/
def jsSplitWs (s : List Char) : List String :=
  (splitWsGo s [] false).map (fun l => String.mk l)

/-- Number of (possibly overlapping) occurrences of `pat` in `hay`:
counts the starting positions at which `pat` occurs. -/
def countOcc : List Char → List Char → Nat
  | [], _ => 0
  | c :: rest, pat => (if hasPrefixCL (c :: rest) pat then 1 else 0) + countOcc rest pat

/-- JS regex `/^\d+$/` : the word is one or more digits. -/
def allDigits (w : List Char) : Bool :=
  !w.isEmpty && w.all Char.isDigit

/-- JS regex `/\$\d+/` : a dollar sign immediately followed by a digit
occurs somewhere in the word. -/
def hasDollarNum : List Char → Bool
  | c1 :: c2 :: rest => (c1 = '$' && c2.isDigit) || hasDollarNum (c2 :: rest)
  | _ => false

/-! ### Context Extractor (`PromptService.extractKeywords`, `classifyIntent`) -/

/-- The shopping keyword vocabulary of `PromptService.extractKeywords`,
transcribed verbatim (duplicates included). -/
def shoppingKeywords : List String :=
  ["price", "cost", "budget", "expensive", "cheap", "affordable", "deal", "discount", "sale", "offer",
   "under", "below", "maximum", "minimum", "range", "around", "approximately", "about",
   "feature", "specification", "specs", "quality", "rating", "review", "brand", "model",
   "size", "color", "capacity", "storage", "memory", "battery", "camera", "screen",
   "buy", "purchase", "order", "checkout", "cart", "wishlist", "compare", "vs", "versus",
   "difference", "similar", "alternative", "option", "choice", "recommendation",
   "phone", "smartphone", "mobile", "laptop", "computer", "tablet", "headphones", "camera",
   "tv", "television", "gaming", "console", "electronics", "tech", "gadget",
   "clothing", "fashion", "shirt", "dress", "shoes", "jeans", "jacket", "bag", "watch",
   "beauty", "skincare", "makeup", "fragrance", "cosmetics", "perfume",
   "home", "furniture", "kitchen", "bedroom", "decor", "appliance",
   "book", "novel", "textbook", "magazine", "reading",
   "health", "fitness", "sports", "exercise", "gym", "outdoor",
   "food", "grocery", "snack", "organic", "beverage",
   "shipping", "delivery", "return", "warranty", "guarantee", "support", "service",
   "availability", "stock", "inventory", "sold", "out", "available",
   "trustworthy", "reliable", "authentic", "genuine", "fake", "counterfeit",
   "help", "assist", "find", "search", "looking", "need", "want", "interested",
   "recommendation", "suggest", "advise", "guide", "best", "top", "popular"]

/-- The filter predicate of `extractKeywords`: keep a token if it is in the
vocabulary, or purely numeric, or contains `$` followed by a digit, or is
longer than 3 characters. -/
def keepKeyword (w : String) : Bool :=
  shoppingKeywords.contains w || allDigits w.toList || hasDollarNum w.toList || w.length > 3

/-- `PromptService.extractKeywords`: lower-case, split on whitespace runs,
filter by `keepKeyword`. -/
def extractKeywords (message : String) : List String :=
  (jsSplitWs (lcList message)).filter keepKeyword

/-- Does the lower-cased message contain any of the given patterns?
(`lowerMessage.includes(p1) || lowerMessage.includes(p2) || ...`). -/
def containsAny (lower : List Char) (pats : List String) : Bool :=
  pats.any (fun p => containsSeg lower p.toList)

/-- Purchase-intent predicate of `classifyIntent`. -/
def purchasePred (lower : List Char) : Bool :=
  containsAny lower ["buy", "purchase", "order", "get"]

/-- Comparison-request predicate of `classifyIntent`. -/
def comparisonPred (lower : List Char) : Bool :=
  containsAny lower ["compare", "vs", "difference", "better"]

/-- Product-recommendation predicate of `classifyIntent`. -/
def recommendationPred (lower : List Char) : Bool :=
  containsAny lower ["recommend", "suggest", "best", "need"]

/-- Pricing-inquiry predicate of `classifyIntent`. -/
def pricingPred (lower : List Char) : Bool :=
  containsAny lower ["price", "cost", "budget", "expensive"]

/-- Feature-inquiry predicate of `classifyIntent`. -/
def featurePred (lower : List Char) : Bool :=
  containsAny lower ["feature", "spec", "how does", "what can"]

/-- Review-inquiry predicate of `classifyIntent`. -/
def reviewPred (lower : List Char) : Bool :=
  containsAny lower ["review", "rating", "quality", "good"]

/-- Availability-inquiry predicate of `classifyIntent`. -/
def availabilityPred (lower : List Char) : Bool :=
  containsAny lower ["available", "stock", "inventory", "in stock"]

/-- Service-inquiry predicate of `classifyIntent`. -/
def servicePred (lower : List Char) : Bool :=
  containsAny lower ["shipping", "delivery", "return", "warranty"]

/-- Greeting predicate of `classifyIntent`: substring `hello` or `hi`, or the
whole message (after lower-casing) equals `hello`/`hi`/`hey` — the anchored
regex `/^(hello|hi|hey)$/`. -/
def greetingPred (lower : List Char) : Bool :=
  containsAny lower ["hello", "hi"] ||
    (lower = "hello".toList || lower = "hi".toList || lower = "hey".toList)

/-- Help-request predicate of `classifyIntent`. -/
def helpPred (lower : List Char) : Bool :=
  containsAny lower ["help", "assistance", "support"]

/-- `PromptService.classifyIntent` (the shopping-assistant version cited by
the spec): guard for empty/whitespace input, then an ordered if/else chain
of keyword predicates, defaulting to `general_inquiry`. -/
def classifyIntent (message : String) : String :=
  let lower := lcList message
  if (jsTrim message.toList).isEmpty then "unknown"
  else if purchasePred lower then "purchase_intent"
  else if comparisonPred lower then "comparison_request"
  else if recommendationPred lower then "product_recommendation"
  else if pricingPred lower then "pricing_inquiry"
  else if featurePred lower then "feature_inquiry"
  else if reviewPred lower then "review_inquiry"
  else if availabilityPred lower then "availability_inquiry"
  else if servicePred lower then "service_inquiry"
  else if greetingPred lower then "greeting"
  else if helpPred lower then "help_request"
  else "general_inquiry"

/-- The ordered (predicate, intent) rule list actually implemented by
`classifyIntent`, for stating the first-match-wins property. -/
def intentRules : List ((List Char → Bool) × String) :=
  [(purchasePred, "purchase_intent"),
   (comparisonPred, "comparison_request"),
   (recommendationPred, "product_recommendation"),
   (pricingPred, "pricing_inquiry"),
   (featurePred, "feature_inquiry"),
   (reviewPred, "review_inquiry"),
   (availabilityPred, "availability_inquiry"),
   (servicePred, "service_inquiry"),
   (greetingPred, "greeting"),
   (helpPred, "help_request")]

/-- Evaluate an ordered rule list first-match-wins, with a default. -/
def firstMatchIntent : List ((List Char → Bool) × String) → List Char → String
  | [], _ => "general_inquiry"
  | (p, r) :: rest, lower => if p lower then r else firstMatchIntent rest lower

/-! ### Guideline Applicability Filter (`GuidelineService.getApplicableGuidelines`) -/

/-- Optional condition axes carried by a guideline. -/
structure GuidelineConditions where
  user_intent : Option (List String)
  conversation_stage : Option (List String)
  context_keywords : Option (List String)
deriving DecidableEq

/-- A behavioural guideline (the fields the applicability filter reads). -/
structure Guideline where
  name : String
  priority : Int
  conditions : Option GuidelineConditions
deriving DecidableEq

/-- The context against which guidelines are matched. -/
structure GuidelineContext where
  userIntent : Option String
  conversationStage : Option String
  keywords : Option (List String)
deriving DecidableEq

/-- JS truthiness of an optional string: `undefined` and `""` are falsy. -/
def optStrTruthy : Option String → Bool
  | some s => !s.isEmpty
  | none => false

/-- The keyword-overlap test of `getApplicableGuidelines`: some guideline
keyword is a case-insensitive substring of some context keyword
(`contextKeyword.toLowerCase().includes(keyword.toLowerCase())`). -/
def keywordOverlap (gkws ckws : List String) : Bool :=
  gkws.any (fun k => ckws.any (fun c => containsSeg (lcList c) (lcList k)))

/-- The per-guideline filter body of `getApplicableGuidelines`: each declared
axis blocks the match only when the context also supplies a (truthy) value
for it and no overlap exists.  Note that a present-but-empty context keyword
array is truthy in JS, while a present-but-empty string is falsy. -/
def guidelineMatches (g : Guideline) (ctx : GuidelineContext) : Bool :=
  match g.conditions with
  | none => true
  | some conds =>
    (match conds.user_intent with
     | some ui =>
       if !ui.isEmpty && optStrTruthy ctx.userIntent then
         ui.contains (ctx.userIntent.getD "")
       else true
     | none => true) &&
    (match conds.conversation_stage with
     | some cs =>
       if !cs.isEmpty && optStrTruthy ctx.conversationStage then
         cs.contains (ctx.conversationStage.getD "")
       else true
     | none => true) &&
    (match conds.context_keywords, ctx.keywords with
     | some gk, some ck => if gk.isEmpty then true else keywordOverlap gk ck
     | _, _ => true)

/-- Keyword overlap as the specification words it: a case-insensitive
substring match in **either** direction. -/
def specKeywordOverlapBothDirs (gkws ckws : List String) : Bool :=
  gkws.any (fun k => ckws.any (fun c =>
    containsSeg (lcList c) (lcList k) || containsSeg (lcList k) (lcList c)))

/-! ### Mapping configuration and its mutations (`ProductService`) -/

/-- Lookup priority of an intent mapping. -/
inductive MappingPriority
  | category
  | search
deriving DecidableEq

/-- Stage suggestion strategies. -/
inductive StageStrategy
  | popular
  | featured
  | discounted
  | top_rated
  | mixed
deriving DecidableEq

/-- A keyword-table entry of `ProductMappingConfig`. -/
structure KeywordMapping where
  searchTerms : List String
  categories : Option (List String)
  priority : Int
deriving DecidableEq

/-- An intent-table entry of `ProductMappingConfig`. -/
structure IntentMapping where
  categories : List String
  searchTerms : Option (List String)
  priority : MappingPriority
  confidence : ℚ
deriving DecidableEq

/-- A stage-table entry of `ProductMappingConfig`. -/
structure StageMapping where
  strategy : StageStrategy
  reason : String
  confidence : ℚ
  limit : Nat
deriving DecidableEq

/-- The mutable mapping configuration: three string-keyed tables. -/
structure ProductMappingConfig where
  keywords : String → Option KeywordMapping
  intents : String → Option IntentMapping
  stages : String → Option StageMapping

/-- JS `toLowerCase` on a whole string. -/
def strToLower (s : String) : String :=
  String.mk (lcList s)

/-- `ProductService.addKeywordMapping`: store the entry under the
lower-cased keyword; no validation is performed. -/
def addKeywordMapping (c : ProductMappingConfig) (keyword : String)
    (cfg : KeywordMapping) : ProductMappingConfig :=
  { c with keywords := fun k => if k = strToLower keyword then some cfg else c.keywords k }

/-- `ProductService.addIntentMapping`: store the entry under the intent key;
no validation is performed. -/
def addIntentMapping (c : ProductMappingConfig) (intent : String)
    (cfg : IntentMapping) : ProductMappingConfig :=
  { c with intents := fun k => if k = intent then some cfg else c.intents k }

/-- `ProductService.addStageConfiguration`: store the entry under the stage
key; no validation is performed. -/
def addStageConfiguration (c : ProductMappingConfig) (stage : String)
    (cfg : StageMapping) : ProductMappingConfig :=
  { c with stages := fun k => if k = stage then some cfg else c.stages k }

/-- A configuration with empty tables (for concrete instances). -/
def emptyConfig : ProductMappingConfig :=
  ⟨fun _ => none, fun _ => none, fun _ => none⟩

/-! ### Products and suggestions -/

/-- The product fields the suggestion engine reads. -/
structure Product where
  id : Int
  price : ℚ
  rating : ℚ
  stock : Nat
  discountPercentage : ℚ
deriving DecidableEq

/-- Provenance tag of a suggestion. -/
inductive SuggestionType
  | contextual
  | keyword
  | intent
  | stage
  | popular
deriving DecidableEq

/-- A scored product suggestion. -/
structure ProductSuggestion where
  product : Product
  reason : String
  confidence : ℚ
  type : SuggestionType
deriving DecidableEq

/-- The context argument of `generateSmartSuggestions`. -/
structure SuggestionContext where
  userMessage : Option String
  conversationStage : Option String
  userIntent : Option String
  keywords : Option (List String)
  budgetRange : Option String
  previousProducts : Option (List Int)
  isTopicChange : Bool
deriving DecidableEq

/-- The five strategy lookups of `ProductService`, abstracted over the
catalog and mapping configuration they consult (each is asynchronous I/O in
the source; failures there already surface as empty lists). -/
structure SuggestionStrategies where
  getContextualSuggestions : String → Option String → List ProductSuggestion
  getProductsByKeywords : List String → Option String → List ProductSuggestion
  getProductsByIntent : String → List ProductSuggestion
  getProductsByStage : String → List ProductSuggestion
  getPopularProducts : List ProductSuggestion

/-- Contextual contribution: only when `context.userMessage` is truthy. -/
def contextualPart (S : SuggestionStrategies) (ctx : SuggestionContext) :
    List ProductSuggestion :=
  match ctx.userMessage with
  | some m => if m.isEmpty then [] else S.getContextualSuggestions m ctx.budgetRange
  | none => []

/-- Keyword contribution in the topic-change branch (the branch guard has
already ensured the keyword list is present and non-empty). -/
def keywordPartTopic (S : SuggestionStrategies) (ctx : SuggestionContext) :
    List ProductSuggestion :=
  match ctx.keywords with
  | some ks => S.getProductsByKeywords ks ctx.budgetRange
  | none => []

/-- Keyword contribution in the normal branch: guarded by
`context.keywords && context.keywords.length > 0`. -/
def keywordPartNormal (S : SuggestionStrategies) (ctx : SuggestionContext) :
    List ProductSuggestion :=
  match ctx.keywords with
  | some ks => if ks.isEmpty then [] else S.getProductsByKeywords ks ctx.budgetRange
  | none => []

/-- Intent contribution: only when `context.userIntent` is truthy. -/
def intentPart (S : SuggestionStrategies) (ctx : SuggestionContext) :
    List ProductSuggestion :=
  match ctx.userIntent with
  | some i => if i.isEmpty then [] else S.getProductsByIntent i
  | none => []

/-- Stage contribution: only when `context.conversationStage` is truthy. -/
def stagePart (S : SuggestionStrategies) (ctx : SuggestionContext) :
    List ProductSuggestion :=
  match ctx.conversationStage with
  | some st => if st.isEmpty then [] else S.getProductsByStage st
  | none => []

/-- The guard of the topic-change branch:
`context.isTopicChange && context.keywords && context.keywords.length > 0`. -/
def topicBranchGuard (ctx : SuggestionContext) : Bool :=
  ctx.isTopicChange &&
    (match ctx.keywords with
     | some ks => !ks.isEmpty
     | none => false)

/-- The suggestion accumulation of `generateSmartSuggestions` before
deduplication: either the topic-change branch (strategies 1–3 only) or the
normal branch (strategies 1–4, with the popular fallback when nothing was
produced). -/
def assembleSuggestions (S : SuggestionStrategies) (ctx : SuggestionContext) :
    List ProductSuggestion :=
  if topicBranchGuard ctx then
    contextualPart S ctx ++ keywordPartTopic S ctx ++ intentPart S ctx
  else
    let base := contextualPart S ctx ++ keywordPartNormal S ctx ++
      intentPart S ctx ++ stagePart S ctx
    if base.isEmpty then S.getPopularProducts else base

/-- Stable insertion step for the confidence-descending sort: a new element
is placed before the first strictly-lower-confidence element, hence after
any earlier element of equal confidence (JS `sort` is stable). -/
def insertByConfidence (s : ProductSuggestion) :
    List ProductSuggestion → List ProductSuggestion
  | [] => [s]
  | t :: ts =>
    if t.confidence < s.confidence then s :: t :: ts
    else t :: insertByConfidence s ts

/-- The confidence-descending sort
(`suggestions.sort((a, b) => b.confidence - a.confidence)`). -/
def sortByConfidenceDesc : List ProductSuggestion → List ProductSuggestion
  | [] => []
  | s :: ss => insertByConfidence s (sortByConfidenceDesc ss)

/-- The id-deduplication loop of `deduplicateSuggestions`: keep an element
only when its product id has not been seen yet. -/
def dedupLoop : List ProductSuggestion → List Int → List ProductSuggestion
  | [], _ => []
  | s :: rest, seen =>
    if s.product.id ∈ seen then dedupLoop rest seen
    else s :: dedupLoop rest (s.product.id :: seen)

/-- `ProductService.deduplicateSuggestions`: sort by confidence descending,
then drop later entries whose product id was already kept. -/
def deduplicateSuggestions (l : List ProductSuggestion) : List ProductSuggestion :=
  dedupLoop (sortByConfidenceDesc l) []

/-- `ProductService.generateSmartSuggestions`: assemble the strategy
outputs, deduplicate, and truncate to 5. -/
def generateSmartSuggestions (S : SuggestionStrategies) (ctx : SuggestionContext) :
    List ProductSuggestion :=
  (deduplicateSuggestions (assembleSuggestions S ctx)).take 5

/-! ### Stage strategy (`ProductService.getProductsByStage`) over a catalog -/

/-- Stable insertion step for rating-descending order. -/
def insertByRating (p : Product) : List Product → List Product
  | [] => [p]
  | q :: qs => if q.rating < p.rating then p :: q :: qs else q :: insertByRating p qs

/-- Catalog ordering `order('rating', { ascending: false })`. -/
def sortByRatingDesc : List Product → List Product
  | [] => []
  | p :: ps => insertByRating p (sortByRatingDesc ps)

/-- Stable insertion step for discount-descending order. -/
def insertByDiscount (p : Product) : List Product → List Product
  | [] => [p]
  | q :: qs =>
    if q.discountPercentage < p.discountPercentage then p :: q :: qs
    else q :: insertByDiscount p qs

/-- Catalog ordering `order('discount_percentage', { ascending: false })`. -/
def sortByDiscountDesc : List Product → List Product
  | [] => []
  | p :: ps => insertByDiscount p (sortByDiscountDesc ps)

/-- `ProductService.getPopularProducts`: top 4 by rating, wrapped as
suggestions with reason `Popular choice` and confidence 0.5. -/
def getPopularProducts (db : List Product) : List ProductSuggestion :=
  ((sortByRatingDesc db).take 4).map
    (fun p => ⟨p, "Popular choice", 1 / 2, SuggestionType.popular⟩)

/-- `ProductService.getTopRatedProducts` (no category filter, as called by
the stage strategy): top `limit` by rating. -/
def getTopRatedProducts (db : List Product) (limit : Nat) : List Product :=
  (sortByRatingDesc db).take limit

/-- `ProductService.getDiscountedProducts`: products with discount at least
`minDiscount`, sorted by discount descending, top `limit`. -/
def getDiscountedProducts (db : List Product) (minDiscount : ℚ) (limit : Nat) :
    List Product :=
  (sortByDiscountDesc (db.filter (fun p => minDiscount ≤ p.discountPercentage))).take limit

/-- `ProductService.getProductsByStage`: assemble a batch according to the
configured strategy, then overwrite **every** suggestion's reason and
confidence with the stage configuration's values and truncate to its limit.
In the `popular` case the item `type` keeps its `popular` provenance, as in
the source. -/
def getProductsByStage (db : List Product) (cfg : ProductMappingConfig)
    (stage : String) : List ProductSuggestion :=
  match cfg.stages stage with
  | none => []
  | some sc =>
    let base : List ProductSuggestion :=
      match sc.strategy with
      | StageStrategy.popular => (getPopularProducts db).take sc.limit
      | StageStrategy.top_rated =>
        (getTopRatedProducts db sc.limit).map
          (fun p => ⟨p, sc.reason, sc.confidence, SuggestionType.stage⟩)
      | StageStrategy.discounted =>
        (getDiscountedProducts db 10 sc.limit).map
          (fun p => ⟨p, sc.reason, sc.confidence, SuggestionType.stage⟩)
      | StageStrategy.featured =>
        let featured := getTopRatedProducts db ((sc.limit + 1) / 2)
        let additional := getPopularProducts db
        featured.map (fun p => ⟨p, sc.reason, sc.confidence, SuggestionType.stage⟩) ++
          (additional.take (sc.limit - featured.length)).map
            (fun s => { s with reason := sc.reason, confidence := sc.confidence,
                               type := SuggestionType.stage })
      | StageStrategy.mixed =>
        let mixLimit := (sc.limit + 2) / 3
        ((getPopularProducts db).take mixLimit).map
          (fun s => { s with reason := sc.reason, confidence := sc.confidence,
                             type := SuggestionType.stage }) ++
        (getTopRatedProducts db mixLimit).map
          (fun p => ⟨p, sc.reason, sc.confidence, SuggestionType.stage⟩) ++
        (getDiscountedProducts db 5 mixLimit).map
          (fun p => ⟨p, sc.reason, sc.confidence, SuggestionType.stage⟩)
    ((base.map (fun s => { s with reason := sc.reason, confidence := sc.confidence })).take
      sc.limit)

/-! ### Agent-side analysis (`AgentService`) -/

/-- Chat message roles. -/
inductive Role
  | user
  | assistant
  | system
deriving DecidableEq

/-- A stored chat message (the fields the analyses read). -/
structure ChatMessage where
  role : Role
  content : String
deriving DecidableEq

/-- The purchase-related keyword list of `calculatePurchaseReadiness`. -/
def purchaseKeywords : List String :=
  ["buy", "purchase", "order", "price", "cost", "shipping", "delivery", "warranty"]

/-- The detail-seeking keyword list of `calculatePurchaseReadiness`. -/
def detailKeywords : List String :=
  ["specification", "spec", "review", "rating", "compare", "feature"]

/-- Keyword-scan accumulation of `calculatePurchaseReadiness`: for each
message and each keyword, add `step` when the lower-cased content contains
the keyword. -/
def keywordScanScore (msgs : List ChatMessage) (kws : List String) (step : Nat)
    (start : Nat) : Nat :=
  msgs.foldl
    (fun acc msg =>
      kws.foldl
        (fun a k => if containsSeg (lcList msg.content) k.toList then a + step else a)
        acc)
    start

/-- `AgentService.calculatePurchaseReadiness`: engagement (5 per user turn,
capped at 30), purchase-keyword scan (+5 each), a +20 bonus when the top
suggestion's confidence exceeds 0.7, detail-keyword scan (+10 each), clamped
to 100. -/
def calculatePurchaseReadiness (messages : List ChatMessage)
    (suggestions : List ProductSuggestion) : Nat :=
  let userMessages := messages.filter (fun m => m.role == Role.user)
  let score1 := min (userMessages.length * 5) 30
  let score2 := keywordScanScore userMessages purchaseKeywords 5 score1
  let score3 := score2 +
    (match suggestions with
     | s :: _ => if (7 : ℚ) / 10 < s.confidence then 20 else 0
     | [] => 0)
  let score4 := keywordScanScore userMessages detailKeywords 10 score3
  min score4 100

/-- Purchase readiness as the specification words it: `+5`/`+10` **per
occurrence** of a keyword across all user turns (counting every occurrence
inside a single message), engagement capped at 30, +20 confidence bonus,
clamped at 100. -/
def specPurchaseReadiness (messages : List ChatMessage)
    (suggestions : List ProductSuggestion) : Nat :=
  let userMessages := messages.filter (fun m => m.role == Role.user)
  let occ := fun (kws : List String) =>
    (userMessages.map (fun m =>
      (kws.map (fun k => countOcc (lcList m.content) k.toList)).sum)).sum
  min
    (min (userMessages.length * 5) 30 + 5 * occ purchaseKeywords +
      (match suggestions with
       | s :: _ => if (7 : ℚ) / 10 < s.confidence then 20 else 0
       | [] => 0) +
      10 * occ detailKeywords)
    100

/-- Number of (message, keyword) pairs where the keyword occurs in the
lower-cased message content — the quantity the source actually scores. -/
def presenceCount (msgs : List ChatMessage) (kws : List String) : Nat :=
  (msgs.map (fun m =>
    (kws.filter (fun k => containsSeg (lcList m.content) k.toList)).length)).sum

/-- The product-category taxonomy of `AgentService.detectTopicChange`. -/
def shoppingCategories : List (String × List String) :=
  [("electronics", ["phone", "smartphone", "iphone", "android", "mobile", "laptop",
      "computer", "tablet", "headphones", "camera", "tv", "gaming"]),
   ("fashion", ["clothing", "fashion", "shirt", "dress", "shoes", "jeans", "jacket",
      "accessories", "bag", "watch", "jewelry"]),
   ("beauty", ["beauty", "skincare", "makeup", "fragrance", "perfume", "cosmetics",
      "shampoo", "lotion", "cream"]),
   ("home", ["furniture", "home", "kitchen", "bedroom", "living", "decor", "appliance",
      "mattress", "sofa", "table"]),
   ("sports", ["sports", "fitness", "gym", "exercise", "running", "yoga", "outdoor",
      "bike", "athletic"]),
   ("books", ["book", "novel", "textbook", "ebook", "reading", "literature", "magazine"]),
   ("health", ["health", "medicine", "supplement", "vitamin", "medical", "wellness",
      "care"]),
   ("toys", ["toy", "game", "puzzle", "kids", "children", "baby", "educational"]),
   ("automotive", ["car", "auto", "vehicle", "automotive", "parts", "accessories",
      "tire"]),
   ("food", ["food", "snack", "grocery", "organic", "beverage", "cooking", "kitchen"])]

/-- The category-detection loop of `detectTopicChange`: the first taxonomy
category whose member list intersects the keyword set, `""` when none does
(the loop variable's initial value). -/
def firstCategoryFor (kws : List String) : String :=
  match shoppingCategories.find? (fun ck => ck.2.any (fun k => kws.contains k)) with
  | some ck => ck.1
  | none => ""

/-- The taxonomy category derived from a keyword set, as an `Option`
(specification-side reading of the same loop). -/
def categoryOf (kws : List String) : Option String :=
  (shoppingCategories.find? (fun ck => ck.2.any (fun k => kws.contains k))).map
    (fun ck => ck.1)

/-- The `recentUserMessages` of `detectTopicChange`: contents of the last 3
user turns (`filter(role === 'user').slice(-3).map(content)`). -/
def recentUserContents (messages : List ChatMessage) : List String :=
  let userMsgs := messages.filter (fun m => m.role == Role.user)
  (userMsgs.drop (userMsgs.length - 3)).map (fun m => m.content)

/-- The `recentKeywords` of `detectTopicChange`: keywords aggregated from
the last 3 user turns, each turn run through `extractContextFromMessage`
(i.e. `extractKeywords`). -/
def historyKeywords (messages : List ChatMessage) : List String :=
  (recentUserContents messages).foldl (fun acc m => acc ++ extractKeywords m) []

/-- `AgentService.detectTopicChange`: no change for an empty history or a
history without user turns; otherwise compare the category of the recent
history keywords with the category of the new message's keywords. -/
def detectTopicChange (messages : List ChatMessage) (newKeywords : List String) :
    Bool :=
  if messages.isEmpty then false
  else if (recentUserContents messages).isEmpty then false
  else
    firstCategoryFor (historyKeywords messages) != "" &&
    firstCategoryFor newKeywords != "" &&
    firstCategoryFor (historyKeywords messages) != firstCategoryFor newKeywords

/-! ### Concrete instances used by counterexamples and witnesses -/

/-- A sample in-stock product. -/
def prodA : Product := ⟨1, 100, 5, 3, 0⟩

/-- A second sample product, discounted. -/
def prodB : Product := ⟨2, 50, 4, 1, 20⟩

/-- A suggestion produced by the stage strategy. -/
def stageSugA : ProductSuggestion := ⟨prodA, "stage pick", 3 / 5, SuggestionType.stage⟩

/-- Strategies where only the stage lookup (for stage `introduction`)
produces anything. -/
def stageOnlyStrategies : SuggestionStrategies :=
  ⟨fun _ _ => [], fun _ _ => [], fun _ => [],
   fun st => if st = "introduction" then [stageSugA] else [], []⟩

/-- A context whose topic-change flag is set but whose keyword list is
empty: the source then takes the normal branch, stage strategy included. -/
def topicChangeEmptyKwCtx : SuggestionContext :=
  ⟨none, some "introduction", none, some [], none, none, true⟩

/-- A context with a genuine topic change (non-empty keywords). -/
def topicChangeCtx : SuggestionContext :=
  ⟨none, some "introduction", none, some ["dress"], none, none, true⟩

/-- A small catalog for evaluating the stage strategy. -/
def demoDb : List Product := [prodA, prodB]

/-- The default `introduction` stage configuration entry. -/
def introStage : StageMapping :=
  ⟨StageStrategy.popular, "Perfect for getting started", 3 / 5, 3⟩

/-- A configuration holding only the `introduction` stage entry. -/
def introConfig : ProductMappingConfig :=
  addStageConfiguration emptyConfig "introduction" introStage

/-- A one-turn history whose single user message repeats a purchase
keyword inside the same message. -/
def buyBuyMessages : List ChatMessage := [⟨Role.user, "buy buy"⟩]

/-- A keyword-table entry with an empty search-term list (the
specification's example of a malformed entry). -/
def malformedKeywordEntry : KeywordMapping := ⟨[], none, 1⟩

/-- An intent-table entry with a negative confidence (the specification's
example of a malformed entry). -/
def malformedIntentEntry : IntentMapping := ⟨[], none, MappingPriority.search, -1⟩

/-! ## Theorems -/

/-- C8, counterexample: `extractKeywords` does **not** deduplicate — the
message `"buy buy"` yields the token `buy` twice, refuting "no token
appears twice in the result". -/
theorem extractKeywords_duplicate_counterexample :
    extractKeywords "buy buy" = ["buy", "buy"] ∧
    ¬ (extractKeywords "buy buy").Nodup := by
  refine ⟨by decide, ?_⟩
  decide

/-- C8, amended: `extractKeywords` keeps every matching token occurrence in
message order, duplicates included — its output is the whitespace-token
list of the lower-cased message filtered by `keepKeyword`: it is a sublist
of the token list, and each token's multiplicity is preserved exactly when
the token is kept and zero otherwise. -/
theorem extractKeywords_filter_characterization (message : String) :
    (extractKeywords message).Sublist (jsSplitWs (lcList message)) ∧
    ∀ w : String, (extractKeywords message).count w =
      if keepKeyword w then (jsSplitWs (lcList message)).count w else 0 := by
  constructor
  · exact List.filter_sublist _
  · intro w
    by_cases h : keepKeyword w
    · rw [if_pos h]
      exact List.count_filter (by simpa using h)
    · rw [if_neg h]
      refine List.count_eq_zero.mpr ?_
      intro hmem
      exact h (List.of_mem_filter hmem)

/-- C9, counterexample: the configuration mutations perform no validation —
an entry with an empty search-term list and an entry with a negative
confidence are both accepted and stored at mutation time, with no error of
any kind (no `ConfigurationError` exists in the code). -/
theorem addMapping_accepts_malformed :
    (addKeywordMapping emptyConfig "phone" malformedKeywordEntry).keywords "phone" =
      some malformedKeywordEntry ∧
    (addIntentMapping emptyConfig "phone_recommendation" malformedIntentEntry).intents
      "phone_recommendation" = some malformedIntentEntry := by
  constructor
  · decide
  · decide

/-- C9, amended: every configuration mutation is total and unvalidated —
adding a keyword, intent, or stage rule always succeeds and stores the
given entry verbatim (the keyword key lower-cased), whatever its
contents. -/
theorem configMutations_total (c : ProductMappingConfig) (k i st : String)
    (km : KeywordMapping) (im : IntentMapping) (sm : StageMapping) :
    (addKeywordMapping c k km).keywords (strToLower k) = some km ∧
    (addIntentMapping c i im).intents i = some im ∧
    (addStageConfiguration c st sm).stages st = some sm := by
  refine ⟨?_, ?_, ?_⟩ <;>
    simp [addKeywordMapping, addIntentMapping, addStageConfiguration]

/-- C5, counterexample: `classifyIntent` checks the purchase predicate
first and the greeting predicate ninth — on a message matching both a
greeting word and a purchase word it returns `purchase_intent`, not
`greeting`, refuting the claimed greeting-first order (the claimed `demo`
and `objection` predicates do not exist in this classifier at all). -/
theorem classifyIntent_order_counterexample :
    classifyIntent "hello buy" = "purchase_intent" ∧
    greetingPred (lcList "hello buy") = true ∧
    purchasePred (lcList "hello buy") = true ∧
    ("purchase_intent" : String) ≠ "greeting" := by
  refine ⟨by decide, by decide, by decide, by decide⟩

/-- C5, amended: `classifyIntent` is an ordered, first-match-wins list of
keyword predicates — in the order purchase, comparison, recommendation,
pricing, feature, review, availability, service, greeting, help — with
default `general_inquiry`, and returns `unknown` exactly on empty or
whitespace-only input. -/
theorem classifyIntent_firstMatch (message : String) :
    classifyIntent message =
      if (jsTrim message.toList).isEmpty then "unknown"
      else firstMatchIntent intentRules (lcList message) := rfl

/-- C4, counterexample: the keyword axis only tests whether a guideline
keyword is a substring of a context keyword, never the converse — a
guideline declaring keyword `smartphones` is rejected against context
keyword `phone`, although the claimed either-direction overlap holds. -/
theorem keywordOverlap_oneDirectional_counterexample :
    guidelineMatches ⟨"kw-guideline", 5, some ⟨none, none, some ["smartphones"]⟩⟩
      ⟨none, none, some ["phone"]⟩ = false ∧
    specKeywordOverlapBothDirs ["smartphones"] ["phone"] = true := by
  refine ⟨by decide, by decide⟩

/-- C4, amended: for a guideline declaring a (non-empty) keywords condition
and a context supplying keywords, the guideline passes the keyword axis iff
some guideline keyword is a case-insensitive substring of some context
keyword — one direction only. -/
theorem keywordAxis_substring_iff (gkws ckws : List String) (hne : gkws ≠ []) :
    (guidelineMatches ⟨"kw-guideline", 5, some ⟨none, none, some gkws⟩⟩
        ⟨none, none, some ckws⟩ = true) ↔
      ∃ g ∈ gkws, ∃ c ∈ ckws, containsSeg (lcList c) (lcList g) = true := by
  have hie : gkws.isEmpty = false := by
    cases gkws with
    | nil => exact absurd rfl hne
    | cons a l => rfl
  simp [guidelineMatches, keywordOverlap, hie, List.any_eq_true]

/-- C4, witness: guideline keyword `phone`, context keyword `smartphones` —
the one-directional substring overlap holds and the guideline passes. -/
theorem keywordAxis_substring_iff_witness :
    guidelineMatches ⟨"kw-guideline", 5, some ⟨none, none, some ["phone"]⟩⟩
      ⟨none, none, some ["smartphones"]⟩ = true :=
  (keywordAxis_substring_iff ["phone"] ["smartphones"] (by decide)).mpr
    ⟨"phone", by decide, "smartphones", by decide, by decide⟩

/-- C10: a context whose keyword field is present but empty is treated as a
supplied value with no possible overlap — any guideline declaring a
non-empty keywords condition is rejected against it, whatever the other
axes hold. -/
theorem emptyContextKeywords_rejects (name : String) (pri : Int)
    (iopt sopt : Option (List String)) (iu cs : Option String)
    (gkws : List String) (hne : gkws ≠ []) :
    guidelineMatches ⟨name, pri, some ⟨iopt, sopt, some gkws⟩⟩
      ⟨iu, cs, some []⟩ = false := by
  have hie : gkws.isEmpty = false := by
    cases gkws with
    | nil => exact absurd rfl hne
    | cons a l => rfl
  simp [guidelineMatches, keywordOverlap, hie]

/-- C10, witness: the concrete guideline with keyword condition `[phone]`
is rejected against a context with an empty keyword list. -/
theorem emptyContextKeywords_rejects_witness :
    (["phone"] : List String) ≠ [] ∧
    guidelineMatches ⟨"kw-guideline", 5, some ⟨none, none, some ["phone"]⟩⟩
      ⟨none, none, some []⟩ = false :=
  ⟨by decide, emptyContextKeywords_rejects "kw-guideline" 5 none none none none
    ["phone"] (by decide)⟩

/-- Folding a keyword list, adding `step` for every keyword satisfying `P`,
adds `step` times the number of matching keywords. -/
theorem foldl_if_step (P : String → Bool) (step : Nat) :
    ∀ (kws : List String) (a : Nat),
      kws.foldl (fun acc k => if P k then acc + step else acc) a =
        a + step * (kws.filter P).length := by
  intro kws
  induction kws with
  | nil => intro a; simp
  | cons k rest ih =>
    intro a
    by_cases h : P k
    · simp only [List.foldl_cons, if_pos h, List.filter_cons, h, ite_true,
        List.length_cons, ih]
      ring
    · simp only [List.foldl_cons, if_neg h, List.filter_cons, h, ite_false,
        ih]
      simp [h]

/-- The double keyword-scan fold of `calculatePurchaseReadiness` adds
`step` per (message, keyword) presence pair. -/
theorem keywordScanScore_eq (kws : List String) (step : Nat) :
    ∀ (msgs : List ChatMessage) (start : Nat),
      keywordScanScore msgs kws step start = start + step * presenceCount msgs kws := by
  intro msgs
  induction msgs with
  | nil => intro start; simp [keywordScanScore, presenceCount]
  | cons m rest ih =>
    intro start
    have hstep : keywordScanScore (m :: rest) kws step start =
        keywordScanScore rest kws step
          (kws.foldl
            (fun a k => if containsSeg (lcList m.content) k.toList then a + step else a)
            start) := rfl
    rw [hstep, ih, foldl_if_step]
    have hpc : presenceCount (m :: rest) kws =
        (kws.filter (fun k => containsSeg (lcList m.content) k.toList)).length +
          presenceCount rest kws := by
      simp [presenceCount]
    rw [hpc]
    ring

/-- C3, counterexample: the scorer adds 5 per (user turn, keyword) pair in
which the keyword is *present*, not per occurrence — the single-turn
history `"buy buy"` (two occurrences of `buy`) scores 10 (5 for the turn +
5 for the presence of `buy`), while the claimed per-occurrence formula
gives 15. -/
theorem purchaseReadiness_occurrence_counterexample :
    calculatePurchaseReadiness buyBuyMessages [] = 10 ∧
    specPurchaseReadiness buyBuyMessages [] = 15 := by
  refine ⟨by decide, by decide⟩

/-- C3, amended: the purchase-readiness score is a natural number of at
most 100 equal, before the final clamp at 100, to: 5 per user turn capped
at 30, plus 5 per (user turn, purchase keyword) pair whose turn contains
the keyword, plus 20 when the top suggestion's confidence exceeds 0.7,
plus 10 per (user turn, detail keyword) pair whose turn contains the
keyword — presence per turn, not occurrences. -/
theorem purchaseReadiness_presence_formula (messages : List ChatMessage)
    (suggestions : List ProductSuggestion) :
    calculatePurchaseReadiness messages suggestions =
      min
        (min ((messages.filter (fun m => m.role == Role.user)).length * 5) 30 +
          5 * presenceCount (messages.filter (fun m => m.role == Role.user))
              purchaseKeywords +
          (match suggestions with
           | s :: _ => if (7 : ℚ) / 10 < s.confidence then 20 else 0
           | [] => 0) +
          10 * presenceCount (messages.filter (fun m => m.role == Role.user))
              detailKeywords)
        100 ∧
    calculatePurchaseReadiness messages suggestions ≤ 100 := by
  constructor
  · simp only [calculatePurchaseReadiness, keywordScanScore_eq]
  · exact Nat.min_le_right _ _

/-- The loop-with-sentinel category detection equals the `Option`-valued
reading with default `""`. -/
theorem firstCategoryFor_eq_getD (kws : List String) :
    firstCategoryFor kws = (categoryOf kws).getD "" := by
  unfold firstCategoryFor categoryOf
  cases hf : shoppingCategories.find? (fun ck => ck.2.any (fun k => kws.contains k)) with
  | none => rfl
  | some ck => rfl

/-- No taxonomy category is named by the empty string, so a detected
category is never the sentinel. -/
theorem categoryOf_ne_empty (kws : List String) (c : String)
    (h : categoryOf kws = some c) : c ≠ "" := by
  unfold categoryOf at h
  obtain ⟨ck, hck, hmap⟩ := Option.map_eq_some'.mp h
  have hmem : ck ∈ shoppingCategories := List.mem_of_find?_eq_some hck
  have hall : ∀ p ∈ shoppingCategories, p.1 ≠ "" := by decide
  exact hmap ▸ hall ck hmem

/-- No keyword matches the empty keyword set, so no category is derived
from it. -/
theorem categoryOf_nil : categoryOf ([] : List String) = none := by decide

/-- The sentinel comparison of `detectTopicChange` agrees with the claimed
both-categories-defined-and-different condition. -/
theorem catFlag_iff (hk nk : List String) :
    (firstCategoryFor hk != "" && firstCategoryFor nk != "" &&
      firstCategoryFor hk != firstCategoryFor nk) = true ↔
    ((categoryOf hk).isSome ∧ (categoryOf nk).isSome ∧
      categoryOf hk ≠ categoryOf nk) := by
  rw [firstCategoryFor_eq_getD, firstCategoryFor_eq_getD]
  rcases hh : categoryOf hk with _ | c
  · simp
  · rcases hn : categoryOf nk with _ | d
    · simp
    · have hc := categoryOf_ne_empty hk c hh
      have hd := categoryOf_ne_empty nk d hn
      simp [hc, hd]

/-- C6: `isTopicChange` is true iff the category derived from the last 3
user turns' keywords and the category derived from the new message's
keywords are both defined and differ; an empty history always yields
`false`; and a smartphone/laptop history followed by "Looking for a red
dress" yields `true`. -/
theorem detectTopicChange_characterization :
    (∀ (msgs : List ChatMessage) (kws : List String),
      detectTopicChange msgs kws = true ↔
        ((categoryOf (historyKeywords msgs)).isSome ∧ (categoryOf kws).isSome ∧
          categoryOf (historyKeywords msgs) ≠ categoryOf kws)) ∧
    (∀ kws : List String, detectTopicChange [] kws = false) ∧
    detectTopicChange [⟨Role.user, "I want a smartphone or a laptop"⟩]
      (extractKeywords "Looking for a red dress") = true := by
  refine ⟨?_, ?_, ?_⟩
  · intro msgs kws
    by_cases h1 : msgs.isEmpty
    · have hm : msgs = [] := by
        cases msgs with
        | nil => rfl
        | cons a l => simp at h1
      subst hm
      have hL : detectTopicChange [] kws = false := rfl
      have hH : historyKeywords ([] : List ChatMessage) = [] := rfl
      rw [hL, hH, categoryOf_nil]
      simp
    · by_cases h2 : (recentUserContents msgs).isEmpty
      · have hL : detectTopicChange msgs kws = false := by
          unfold detectTopicChange
          rw [if_neg h1, if_pos h2]
        have hre : recentUserContents msgs = [] := by
          cases hr : recentUserContents msgs with
          | nil => rfl
          | cons a l => rw [hr] at h2; simp at h2
        have hH : historyKeywords msgs = [] := by
          unfold historyKeywords
          rw [hre]
          rfl
        rw [hL, hH, categoryOf_nil]
        simp
      · have hL : detectTopicChange msgs kws =
            (firstCategoryFor (historyKeywords msgs) != "" &&
             firstCategoryFor kws != "" &&
             firstCategoryFor (historyKeywords msgs) != firstCategoryFor kws) := by
          unfold detectTopicChange
          rw [if_neg h1, if_neg h2]
        rw [hL]
        exact catFlag_iff _ _
  · intro kws
    rfl
  · decide

/-- C7: for every catalog and every stage that has a configuration entry,
every suggestion in the stage batch carries exactly the entry's reason and
confidence (the final overwrite pass discards any item-level values the
popular/top_rated/discounted/featured/mixed sub-strategy produced), and the
batch length is at most the entry's limit. -/
theorem getProductsByStage_uniform (db : List Product) (cfg : ProductMappingConfig)
    (stage : String) (sc : StageMapping) (h : cfg.stages stage = some sc) :
    (∀ s ∈ getProductsByStage db cfg stage,
        s.reason = sc.reason ∧ s.confidence = sc.confidence) ∧
    (getProductsByStage db cfg stage).length ≤ sc.limit := by
  obtain ⟨base, hbase⟩ : ∃ base : List ProductSuggestion,
      getProductsByStage db cfg stage =
        (base.map (fun s =>
          { s with reason := sc.reason, confidence := sc.confidence })).take sc.limit := by
    unfold getProductsByStage
    rw [h]
    exact ⟨_, rfl⟩
  rw [hbase]
  constructor
  · intro s hs
    have hs' := (List.take_sublist _ _).subset hs
    obtain ⟨u, hu, rfl⟩ := List.mem_map.mp hs'
    exact ⟨rfl, rfl⟩
  · rw [List.length_take]
    exact min_le_left _ _

/-- C7, witness: the default `introduction` entry (popular strategy,
limit 3) on a two-product catalog. -/
theorem getProductsByStage_uniform_witness :
    introConfig.stages "introduction" = some introStage ∧
    (getProductsByStage demoDb introConfig "introduction").length ≤ introStage.limit :=
  ⟨rfl,
   (getProductsByStage_uniform demoDb introConfig "introduction" introStage rfl).2⟩

/-- C2, counterexample: the topic-change branch is guarded by
`isTopicChange && keywords && keywords.length > 0` — with `isTopicChange =
true` but an empty keyword list the generator takes the normal branch, so
the stage strategy does contribute, refuting "for every input with
isTopicChange = true … never from the stage strategy". -/
theorem topicChange_emptyKeywords_stage_leak :
    topicChangeEmptyKwCtx.isTopicChange = true ∧
    generateSmartSuggestions stageOnlyStrategies topicChangeEmptyKwCtx = [stageSugA] ∧
    stageSugA.type = SuggestionType.stage := by
  refine ⟨rfl, rfl, rfl⟩

/-- C2, amended: only when `isTopicChange` is true **and** the context's
keyword list is present and non-empty does the generator restrict itself to
the contextual, keyword, and intent strategies; in every other case
(including `isTopicChange` true with missing or empty keywords) it runs
contextual, keyword, intent, then stage, with the popular fallback used
exactly when those four produced nothing. -/
theorem pipeline_selection_amended (S : SuggestionStrategies)
    (ctx : SuggestionContext) :
    (ctx.isTopicChange = true → ∀ ks, ctx.keywords = some ks → ks ≠ [] →
      assembleSuggestions S ctx =
        contextualPart S ctx ++ keywordPartTopic S ctx ++ intentPart S ctx) ∧
    ((ctx.isTopicChange = false ∨ ctx.keywords = none ∨ ctx.keywords = some []) →
      assembleSuggestions S ctx =
        if (contextualPart S ctx ++ keywordPartNormal S ctx ++ intentPart S ctx ++
            stagePart S ctx).isEmpty
        then S.getPopularProducts
        else contextualPart S ctx ++ keywordPartNormal S ctx ++ intentPart S ctx ++
          stagePart S ctx) := by
  constructor
  · intro htc ks hks hne
    have hg : topicBranchGuard ctx = true := by
      unfold topicBranchGuard
      rw [htc, hks]
      cases ks with
      | nil => exact absurd rfl hne
      | cons a l => rfl
    unfold assembleSuggestions
    rw [hg]
    rfl
  · intro hdisj
    have hg : topicBranchGuard ctx = false := by
      unfold topicBranchGuard
      rcases hdisj with h | h | h
      · rw [h]; rfl
      · rw [h]; simp
      · rw [h]; simp
    unfold assembleSuggestions
    rw [hg]
    rfl

/-- C2, witness: a topic-change context with the non-empty keyword list
`[dress]` restricts the assembly to strategies 1–3. -/
theorem pipeline_selection_amended_witness :
    assembleSuggestions stageOnlyStrategies topicChangeCtx =
      contextualPart stageOnlyStrategies topicChangeCtx ++
        keywordPartTopic stageOnlyStrategies topicChangeCtx ++
        intentPart stageOnlyStrategies topicChangeCtx :=
  (pipeline_selection_amended stageOnlyStrategies topicChangeCtx).1 rfl ["dress"] rfl
    (by decide)

/-- Membership in an insertion step. -/
theorem mem_insertByConfidence {a s : ProductSuggestion} :
    ∀ {l : List ProductSuggestion}, a ∈ insertByConfidence s l ↔ a = s ∨ a ∈ l := by
  intro l
  induction l with
  | nil => simp [insertByConfidence]
  | cons t ts ih =>
    by_cases h : t.confidence < s.confidence
    · simp only [insertByConfidence, if_pos h, List.mem_cons]
    · simp only [insertByConfidence, if_neg h, List.mem_cons, ih]
      tauto

/-- Inserting into a confidence-descending list keeps it descending. -/
theorem pairwise_insertByConfidence {s : ProductSuggestion}
    {l : List ProductSuggestion}
    (hl : l.Pairwise (fun x y => y.confidence ≤ x.confidence)) :
    (insertByConfidence s l).Pairwise (fun x y => y.confidence ≤ x.confidence) := by
  induction l with
  | nil => simp [insertByConfidence]
  | cons t ts ih =>
    rw [List.pairwise_cons] at hl
    obtain ⟨ht, hts⟩ := hl
    by_cases h : t.confidence < s.confidence
    · simp only [insertByConfidence, if_pos h]
      refine List.pairwise_cons.mpr ⟨?_, List.pairwise_cons.mpr ⟨ht, hts⟩⟩
      intro b hb
      rcases List.mem_cons.mp hb with rfl | hb'
      · exact le_of_lt h
      · exact le_trans (ht b hb') (le_of_lt h)
    · simp only [insertByConfidence, if_neg h]
      refine List.pairwise_cons.mpr ⟨?_, ih hts⟩
      intro b hb
      rcases mem_insertByConfidence.mp hb with rfl | hb'
      · exact not_lt.mp h
      · exact ht b hb'

/-- The insertion sort permutes nothing in and nothing out. -/
theorem mem_sortByConfidenceDesc {a : ProductSuggestion} :
    ∀ {l : List ProductSuggestion}, a ∈ sortByConfidenceDesc l ↔ a ∈ l := by
  intro l
  induction l with
  | nil => simp [sortByConfidenceDesc]
  | cons s ss ih =>
    simp only [sortByConfidenceDesc, mem_insertByConfidence, ih, List.mem_cons]

/-- The insertion sort produces a confidence-descending list. -/
theorem pairwise_sortByConfidenceDesc :
    ∀ (l : List ProductSuggestion),
      (sortByConfidenceDesc l).Pairwise (fun x y => y.confidence ≤ x.confidence) := by
  intro l
  induction l with
  | nil => simp [sortByConfidenceDesc]
  | cons s ss ih => exact pairwise_insertByConfidence ih

/-- The deduplication loop yields a sublist of its input. -/
theorem dedupLoop_sublist :
    ∀ (l : List ProductSuggestion) (seen : List Int), (dedupLoop l seen).Sublist l := by
  intro l
  induction l with
  | nil => intro seen; simp [dedupLoop]
  | cons s rest ih =>
    intro seen
    by_cases h : s.product.id ∈ seen
    · simp only [dedupLoop, if_pos h]
      exact (ih seen).cons s
    · simp only [dedupLoop, if_neg h]
      exact (ih _).cons₂ s

/-- Nothing kept by the deduplication loop has an already-seen id. -/
theorem dedupLoop_not_seen :
    ∀ (l : List ProductSuggestion) (seen : List Int),
      ∀ s ∈ dedupLoop l seen, s.product.id ∉ seen := by
  intro l
  induction l with
  | nil => intro seen s hs; simp [dedupLoop] at hs
  | cons t rest ih =>
    intro seen s hs
    by_cases h : t.product.id ∈ seen
    · simp only [dedupLoop, if_pos h] at hs
      exact ih seen s hs
    · simp only [dedupLoop, if_neg h] at hs
      rcases List.mem_cons.mp hs with rfl | hs'
      · exact h
      · intro hmem
        exact ih _ s hs' (List.mem_cons_of_mem _ hmem)

/-- The ids kept by the deduplication loop are pairwise distinct. -/
theorem dedupLoop_nodup :
    ∀ (l : List ProductSuggestion) (seen : List Int),
      ((dedupLoop l seen).map (fun s => s.product.id)).Nodup := by
  intro l
  induction l with
  | nil => intro seen; simp [dedupLoop]
  | cons t rest ih =>
    intro seen
    by_cases h : t.product.id ∈ seen
    · simp only [dedupLoop, if_pos h]
      exact ih seen
    · simp only [dedupLoop, if_neg h, List.map_cons]
      refine List.nodup_cons.mpr ⟨?_, ih _⟩
      intro hm
      obtain ⟨s, hs, hid⟩ := List.mem_map.mp hm
      have hns := dedupLoop_not_seen rest _ s hs
      apply hns
      rw [hid]
      exact List.mem_cons_self _ _

/-- On a confidence-descending list, every survivor of the deduplication
loop has the maximal confidence among all input entries sharing its id. -/
theorem dedupLoop_maxconf :
    ∀ (l : List ProductSuggestion) (seen : List Int),
      l.Pairwise (fun x y => y.confidence ≤ x.confidence) →
      ∀ s ∈ dedupLoop l seen, ∀ t ∈ l, t.product.id = s.product.id →
        t.confidence ≤ s.confidence := by
  intro l
  induction l with
  | nil => intro seen hpw s hs; simp [dedupLoop] at hs
  | cons u rest ih =>
    intro seen hpw s hs t ht hid
    rw [List.pairwise_cons] at hpw
    obtain ⟨hu, hrest⟩ := hpw
    by_cases h : u.product.id ∈ seen
    · simp only [dedupLoop, if_pos h] at hs
      rcases List.mem_cons.mp ht with rfl | ht'
      · exfalso
        apply dedupLoop_not_seen rest seen s hs
        rw [← hid]
        exact h
      · exact ih seen hrest s hs t ht' hid
    · simp only [dedupLoop, if_neg h] at hs
      rcases List.mem_cons.mp hs with rfl | hs'
      · rcases List.mem_cons.mp ht with rfl | ht'
        · exact le_refl _
        · exact hu t ht'
      · rcases List.mem_cons.mp ht with rfl | ht'
        · exfalso
          apply dedupLoop_not_seen rest _ s hs'
          rw [← hid]
          exact List.mem_cons_self _ _
        · exact ih _ hrest s hs' t ht' hid

/-- C1: for every choice of strategies (hence every context, mapping
configuration, and catalog), the final suggestion list has pairwise
distinct product ids, has length at most 5, is ordered by confidence
descending, and every entry comes from the assembled strategy outputs with
the maximal confidence among entries sharing its product id. -/
theorem generateSmartSuggestions_invariants (S : SuggestionStrategies)
    (ctx : SuggestionContext) :
    ((generateSmartSuggestions S ctx).map (fun s => s.product.id)).Nodup ∧
    (generateSmartSuggestions S ctx).length ≤ 5 ∧
    (generateSmartSuggestions S ctx).Pairwise
      (fun a b => b.confidence ≤ a.confidence) ∧
    ∀ s ∈ generateSmartSuggestions S ctx,
      s ∈ assembleSuggestions S ctx ∧
      ∀ t ∈ assembleSuggestions S ctx, t.product.id = s.product.id →
        t.confidence ≤ s.confidence := by
  have hout : generateSmartSuggestions S ctx =
      (dedupLoop (sortByConfidenceDesc (assembleSuggestions S ctx)) []).take 5 := rfl
  have hsorted := pairwise_sortByConfidenceDesc (assembleSuggestions S ctx)
  refine ⟨?_, ?_, ?_, ?_⟩
  · rw [hout]
    have hnd := dedupLoop_nodup (sortByConfidenceDesc (assembleSuggestions S ctx)) []
    have hsub := List.Sublist.map (fun s => s.product.id)
      (List.take_sublist 5 (dedupLoop (sortByConfidenceDesc (assembleSuggestions S ctx)) []))
    exact List.Nodup.sublist hsub hnd
  · rw [hout, List.length_take]
    exact min_le_left _ _
  · rw [hout]
    have hpw := List.Pairwise.sublist
      (dedupLoop_sublist (sortByConfidenceDesc (assembleSuggestions S ctx)) []) hsorted
    exact List.Pairwise.sublist (List.take_sublist _ _) hpw
  · intro s hs
    rw [hout] at hs
    have hs1 : s ∈ dedupLoop (sortByConfidenceDesc (assembleSuggestions S ctx)) [] :=
      (List.take_sublist _ _).subset hs
    have hs2 : s ∈ sortByConfidenceDesc (assembleSuggestions S ctx) :=
      (dedupLoop_sublist _ _).subset hs1
    refine ⟨mem_sortByConfidenceDesc.mp hs2, ?_⟩
    intro t ht hid
    exact dedupLoop_maxconf _ [] hsorted s hs1 t (mem_sortByConfidenceDesc.mpr ht) hid

/-- C1, witness: the invariants instantiated at a concrete strategy/context
pair (the stage-only strategies with the empty-keyword topic context). -/
theorem generateSmartSuggestions_invariants_witness :
    (generateSmartSuggestions stageOnlyStrategies topicChangeEmptyKwCtx).length ≤ 5 :=
  (generateSmartSuggestions_invariants stageOnlyStrategies topicChangeEmptyKwCtx).2.1

end GAgent
